import Mathlib

/-!
Shallow embedding of the vanish-link worker core: the `links` table rows
(migrations/0001_init.sql with the `password_protected` column), the database
operations (`createLink`, `getLink`, `burnLink`, `deleteLink` in the db module,
`cleanupExpired` in the cleanup module), and the HTTP handlers of the E2E worker
(create / consume / status / delete).  Timestamps are modelled as integer
milliseconds (the handler computes `new Date(created_at).getTime()` and compares
against `Date.now()`); the SQL of `cleanupExpired` compares the same instants at
second resolution, which we model with the same millisecond clock.
-/

namespace VanishLink

/-- A row of the `links` table. -/
structure Link where
  id : String
  content : String
  views_remaining : Int
  views_total : Int
  ttl_seconds : Int
  password : Option String
  password_protected : Bool
  created_at : Int

deriving instance DecidableEq for Link

/-- Function `createLink`: `INSERT INTO links ... VALUES (...)`. -/
def createLink (db : List Link) (record : Link) : List Link := db ++ [record]

/-- Function `getLink`: `SELECT * FROM links WHERE id = ?`. -/
def getLink (db : List Link) (id : String) : Option Link :=
  db.find? (fun l => l.id == id)

/-- Function `burnLink`: `UPDATE links SET views_remaining = views_remaining - 1 WHERE id = ?`.
Note the update is unconditional: there is no `AND views_remaining > 0` guard. -/
def burnLink (db : List Link) (id : String) : List Link :=
  db.map (fun l =>
    if l.id == id then { l with views_remaining := l.views_remaining - 1 } else l)

/-- Function `deleteLink`: `DELETE FROM links WHERE id = ?`. -/
def deleteLink (db : List Link) (id : String) : List Link :=
  db.filter (fun l => !(l.id == id))

/-- The death condition shared by consume and the reaper: TTL elapsed or view
budget exhausted. -/
def isDead (now : Int) (l : Link) : Bool :=
  decide (l.created_at + l.ttl_seconds * 1000 < now) || decide (l.views_remaining ≤ 0)

/-- Function `cleanupExpired`: `DELETE FROM links WHERE datetime(created_at, ...) < datetime(now)
OR views_remaining <= 0`, returning `result.meta.changes` (the number of rows removed). -/
def cleanupExpired (db : List Link) (now : Int) : Nat × List Link :=
  let remaining := db.filter (fun l => !(isDead now l))
  (db.length - remaining.length, remaining)

/-- Outcome of the consume endpoint `POST /api/v1/links/:id/consume`. -/
inductive ConsumeResult where
  | notFound
  | expiredOrBurned
  | success (ciphertext : String) (views_remaining : Int) (burned : Bool)
      (password_protected : Bool)

deriving instance DecidableEq for ConsumeResult

/-- Second half of the consume handler: given the row fetched by `getLink`
(the snapshot `link`), run the expiry check on the snapshot and then issue the
write against the current database state.  The fetch and this step are separate
awaited database round trips in the worker. -/
def consumeCheck (db : List Link) (id : String) (now : Int) :
    Option Link → ConsumeResult × List Link
  | none => (.notFound, db)
  | some link =>
    if now > link.created_at + link.ttl_seconds * 1000 ∨ link.views_remaining ≤ 0 then
      (.expiredOrBurned, burnLink db id)
    else
      (.success link.content (link.views_remaining - 1)
        (decide (link.views_remaining - 1 ≤ 0)) link.password_protected,
       burnLink db id)

/-- The consume handler run in isolation: fetch the row, then check and burn. -/
def consumeHandler (db : List Link) (id : String) (now : Int) :
    ConsumeResult × List Link :=
  consumeCheck db id now (getLink db id)

/-- Two concurrent consume calls interleaved as: fetch by caller 1, fetch by
caller 2, then check-and-burn by caller 1, then check-and-burn by caller 2.
Each caller's check runs on its own fetched snapshot while the burn applies to
the database state current at that moment, exactly as in the handler. -/
def consumeRaceBoth (db : List Link) (id : String) (now : Int) :
    ConsumeResult × ConsumeResult × List Link :=
  let fetched1 := getLink db id
  let fetched2 := getLink db id
  let step1 := consumeCheck db id now fetched1
  let step2 := consumeCheck step1.2 id now fetched2
  (step1.1, step2.1, step2.2)

/-- Outcome of the status endpoint `GET /api/v1/links/:id`. -/
inductive StatusResult where
  | notFound
  | ok (id : String) (views_remaining views_total : Int) (created_at : Int)
      (password_protected : Bool) (expires_at : Int)

deriving instance DecidableEq for StatusResult

/-- The status handler: read-only lookup reporting the stored counters and the
expiry instant `created_at + ttl_seconds * 1000`. -/
def statusHandler (db : List Link) (id : String) : StatusResult :=
  match getLink db id with
  | none => .notFound
  | some l =>
      .ok l.id l.views_remaining l.views_total l.created_at l.password_protected
        (l.created_at + l.ttl_seconds * 1000)

/-- JavaScript truthiness for an optional string field: `undefined` and the
empty string are falsy. -/
def jsStrTruthy : Option String → Bool
  | none => false
  | some s => !(s == "")

/-- JavaScript `v || d` for an optional numeric field: `undefined` and `0` fall
back to the default, every other value (negative included) passes through. -/
def jsOr (v : Option Int) (d : Int) : Int :=
  match v with
  | none => d
  | some n => if n = 0 then d else n

/-- Body of a create request as read by the handler. -/
structure CreateBody where
  ciphertext : Option String
  content : Option String
  views : Option Int
  ttl_seconds : Option Int
  password_protected : Bool

deriving instance DecidableEq for CreateBody

/-- The expression `body.ciphertext || body.content`. -/
def effectiveCiphertext (body : CreateBody) : Option String :=
  if jsStrTruthy body.ciphertext then body.ciphertext else body.content

/-- Outcome of the create endpoint `POST /api/v1/links`. -/
inductive CreateResult where
  | invalid
  | created (id : String) (views_left : Int) (expires_in : Int)
      (password_protected : Bool)

deriving instance DecidableEq for CreateResult

/-- The create handler: reject with 400 when `body.ciphertext || body.content`
is falsy, otherwise insert a row with `views_remaining = views_total =
body.views || 1`, `ttl_seconds = body.ttl_seconds || 3600`, `password = null`,
`created_at = now`. -/
def createHandler (db : List Link) (body : CreateBody) (id : String) (now : Int) :
    CreateResult × List Link :=
  if jsStrTruthy (effectiveCiphertext body) then
    let ct := (effectiveCiphertext body).getD ""
    let views := jsOr body.views 1
    let ttl := jsOr body.ttl_seconds 3600
    (.created id views ttl body.password_protected,
     createLink db ⟨id, ct, views, views, ttl, none, body.password_protected, now⟩)
  else
    (.invalid, db)

/-- Delete endpoint `DELETE /api/v1/links/:id`: unconditional removal. -/
def deleteHandler (db : List Link) (id : String) : List Link :=
  deleteLink db id

/-! Store lemmas shared by several results -/

/-- Burning a record leaves it findable with its counter decremented. -/
theorem getLink_burnLink (db : List Link) (id : String) :
    getLink (burnLink db id) id =
      (getLink db id).map (fun l => { l with views_remaining := l.views_remaining - 1 }) := by
  have hpres : ((fun l : Link => l.id == id) ∘ fun l : Link =>
      if l.id == id then { l with views_remaining := l.views_remaining - 1 } else l) =
      (fun l : Link => l.id == id) := by
    funext l
    by_cases h : l.id == id
    · simp only [Function.comp]
      rw [if_pos h]
    · simp only [Function.comp]
      rw [if_neg h]
  unfold getLink burnLink
  rw [List.find?_map, hpres]
  cases hfind : List.find? (fun l : Link => l.id == id) db with
  | none => rfl
  | some l =>
    have hl := List.find?_some hfind
    simp only [Option.map_some']
    rw [if_pos hl]

/-- Deleting a record makes it unfindable. -/
theorem getLink_deleteLink (db : List Link) (id : String) :
    getLink (deleteLink db id) id = none := by
  simp [getLink, deleteLink, List.find?_eq_none]

/-- Whenever the consume handler finds the row, it burns it, in the dead branch
as much as in the success branch. -/
theorem consumeHandler_found (db : List Link) (id : String) (now : Int) (l : Link)
    (h : getLink db id = some l) :
    (consumeHandler db id now).2 = burnLink db id := by
  simp only [consumeHandler, h, consumeCheck]
  split <;> rfl

/-- The consume handler on a live row: returns the stored ciphertext with the
decremented counter and burns the row. -/
theorem consumeHandler_live (db : List Link) (id : String) (now : Int) (l : Link)
    (h : getLink db id = some l)
    (httl : now ≤ l.created_at + l.ttl_seconds * 1000)
    (hviews : 0 < l.views_remaining) :
    consumeHandler db id now =
      (.success l.content (l.views_remaining - 1)
        (decide (l.views_remaining - 1 ≤ 0)) l.password_protected,
       burnLink db id) := by
  have hcond : ¬(now > l.created_at + l.ttl_seconds * 1000 ∨ l.views_remaining ≤ 0) := by
    push_neg
    exact ⟨httl, hviews⟩
  simp only [consumeHandler, h, consumeCheck]
  rw [if_neg hcond]

/-- The consume handler on a dead row: reports expired-or-burned and still
burns the row. -/
theorem consumeHandler_dead (db : List Link) (id : String) (now : Int) (l : Link)
    (h : getLink db id = some l)
    (hdead : now > l.created_at + l.ttl_seconds * 1000 ∨ l.views_remaining ≤ 0) :
    consumeHandler db id now = (.expiredOrBurned, burnLink db id) := by
  simp only [consumeHandler, h, consumeCheck]
  rw [if_pos hdead]

/-! Section C1: serialization of consume -/

/-- Claim C1 (refuted by the code): the read-check-decrement sequence is not
serialized.  Two consume calls racing for the last remaining view of record
`a` — both fetch the row with `views_remaining = 1`, then both run the check on
their snapshot and issue the unconditional decrement — BOTH receive the
ciphertext with `burned = true`, and the stored counter ends at `-1`. -/
theorem consume_race_both_succeed :
    consumeRaceBoth [⟨"a", "CT", 1, 1, 3600, none, false, 0⟩] "a" 1000 =
      (.success "CT" 0 true false, .success "CT" 0 true false,
       [⟨"a", "CT", -1, 1, 3600, none, false, 0⟩]) := by
  decide

/-! Section C3: consume on a dead record -/

/-- Claim C3 (counterexample): consuming the dead record `a` (its
`views_remaining` is 0) returns Gone(Expired), but the row is NOT deleted: it
is still present afterwards, with its counter decremented to `-1`. -/
theorem consume_dead_row_persists_cex :
    (consumeHandler [⟨"a", "CT", 0, 3, 3600, none, false, 0⟩] "a" 1000).1 =
        ConsumeResult.expiredOrBurned ∧
      getLink (consumeHandler [⟨"a", "CT", 0, 3, 3600, none, false, 0⟩] "a" 1000).2 "a" =
        some ⟨"a", "CT", -1, 3, 3600, none, false, 0⟩ := by
  decide

/-- Claim C3 (amended): for every id whose record is dead at consume time (TTL
elapsed or `views_remaining ≤ 0`), consume returns Gone(Expired) but does not
delete the record: it decrements `views_remaining` once more and the row
remains present with the decremented counter. -/
theorem consume_dead_decrements_row (db : List Link) (id : String) (now : Int) (l : Link)
    (h : getLink db id = some l)
    (hdead : now > l.created_at + l.ttl_seconds * 1000 ∨ l.views_remaining ≤ 0) :
    (consumeHandler db id now).1 = ConsumeResult.expiredOrBurned ∧
      getLink (consumeHandler db id now).2 id =
        some { l with views_remaining := l.views_remaining - 1 } := by
  rw [consumeHandler_dead db id now l h hdead]
  exact ⟨rfl, by rw [getLink_burnLink, h]; rfl⟩

/-! Section C2: exact view budget under successive consumes -/

/-- The store after `k` successive consume calls on `id`. -/
def iterConsume (id : String) (now : Int) : Nat → List Link → List Link
  | 0, db => db
  | Nat.succ k, db => iterConsume id now k (consumeHandler db id now).2

/-- Result of the `(k+1)`-th call in a sequence of consume calls on `id`
(so `k = 0` is the first call). -/
def nthConsume (db : List Link) (id : String) (now : Int) (k : Nat) : ConsumeResult :=
  (consumeHandler (iterConsume id now k db) id now).1

/-- After `k` consume calls on a present record, its counter has gone down by
exactly `k` and nothing else about it changed. -/
theorem getLink_iterConsume (id : String) (now : Int) :
    ∀ (k : Nat) (db : List Link) (l : Link), getLink db id = some l →
      getLink (iterConsume id now k db) id =
        some { l with views_remaining := l.views_remaining - (k : Int) } := by
  intro k
  induction k with
  | zero =>
    intro db l h
    rw [iterConsume, h]
    norm_num
  | succ k ih =>
    intro db l h
    have hburn : (consumeHandler db id now).2 = burnLink db id :=
      consumeHandler_found db id now l h
    have h2 : getLink (burnLink db id) id =
        some { l with views_remaining := l.views_remaining - 1 } := by
      rw [getLink_burnLink, h]
      rfl
    have hrec := ih (burnLink db id) _ h2
    rw [iterConsume, hburn, hrec]
    have harith : l.views_remaining - 1 - (k : Int) =
        l.views_remaining - ((k + 1 : Nat) : Int) := by
      push_cast
      ring
    show some { l with views_remaining := l.views_remaining - 1 - (k : Int) } = _
    rw [harith]

/-- Claim C2: a record holding `views_remaining = N` with its TTL not yet
elapsed yields exactly `N` successful consumes — the `(k+1)`-th (for `k < N`)
returns the stored ciphertext with counter `N - k - 1` and
`burned = (N - k - 1 ≤ 0)` — while every later call (the `(N+1)`-th included)
returns Gone(Expired). -/
theorem consume_exact_budget (db : List Link) (id : String) (now : Int) (l : Link)
    (h : getLink db id = some l)
    (httl : now ≤ l.created_at + l.ttl_seconds * 1000) :
    (∀ k : Nat, (k : Int) < l.views_remaining →
      nthConsume db id now k =
        .success l.content (l.views_remaining - (k : Int) - 1)
          (decide (l.views_remaining - (k : Int) - 1 ≤ 0)) l.password_protected) ∧
    (∀ k : Nat, l.views_remaining ≤ (k : Int) →
      nthConsume db id now k = .expiredOrBurned) := by
  constructor
  · intro k hk
    have hg := getLink_iterConsume id now k db l h
    have hlive := consumeHandler_live (iterConsume id now k db) id now _ hg httl
      (by simpa using hk)
    rw [nthConsume, hlive]
  · intro k hk
    have hg := getLink_iterConsume id now k db l h
    have hdead := consumeHandler_dead (iterConsume id now k db) id now _ hg
      (Or.inr (by simpa using hk))
    rw [nthConsume, hdead]

/-- Witness for C2 at the spec's concrete scenario: `views = 3`, four
consume calls reporting counters 2, 1, 0 with `burned` false, false, true,
then Gone(Expired). -/
theorem consume_exact_budget_inst :
    nthConsume [⟨"a", "CT", 3, 3, 3600, none, false, 0⟩] "a" 1000 0 =
        ConsumeResult.success "CT" 2 false false ∧
      nthConsume [⟨"a", "CT", 3, 3, 3600, none, false, 0⟩] "a" 1000 1 =
        ConsumeResult.success "CT" 1 false false ∧
      nthConsume [⟨"a", "CT", 3, 3, 3600, none, false, 0⟩] "a" 1000 2 =
        ConsumeResult.success "CT" 0 true false ∧
      nthConsume [⟨"a", "CT", 3, 3, 3600, none, false, 0⟩] "a" 1000 3 =
        ConsumeResult.expiredOrBurned := by
  have h := consume_exact_budget [⟨"a", "CT", 3, 3, 3600, none, false, 0⟩] "a" 1000
    ⟨"a", "CT", 3, 3, 3600, none, false, 0⟩ rfl (by decide)
  exact ⟨(h.1 0 (by decide)).trans (by decide), (h.1 1 (by decide)).trans (by decide),
    (h.1 2 (by decide)).trans (by decide), h.2 3 (by decide)⟩

/-- Witness for the amended C3 at a TTL-expired record. -/
theorem consume_dead_decrements_row_inst :
    (consumeHandler [⟨"b", "CT2", 2, 2, 1, none, true, 0⟩] "b" 5000).1 =
        ConsumeResult.expiredOrBurned ∧
      getLink (consumeHandler [⟨"b", "CT2", 2, 2, 1, none, true, 0⟩] "b" 5000).2 "b" =
        some ⟨"b", "CT2", 1, 2, 1, none, true, 0⟩ := by
  have h := consume_dead_decrements_row [⟨"b", "CT2", 2, 2, 1, none, true, 0⟩] "b" 5000
    ⟨"b", "CT2", 2, 2, 1, none, true, 0⟩ rfl (by decide)
  exact ⟨h.1, h.2.trans (by decide)⟩

/-! Section C4: the counter invariant across operation sequences -/

/-- One request against the store: the five operations of the worker. -/
inductive StoreOp where
  | create (body : CreateBody) (id : String) (now : Int)
  | consume (id : String) (now : Int)
  | status (id : String)
  | del (id : String)
  | sweep (now : Int)

/-- The store state after one operation. -/
def applyOp (db : List Link) : StoreOp → List Link
  | .create body id now => (createHandler db body id now).2
  | .consume id now => (consumeHandler db id now).2
  | .status _ => db
  | .del id => deleteHandler db id
  | .sweep now => (cleanupExpired db now).2

/-- The store state after a sequence of operations. -/
def runOps (db : List Link) : List StoreOp → List Link
  | [] => db
  | op :: ops => runOps (applyOp db op) ops

/-- The consume handler either leaves the store unchanged (row absent) or
burns the row. -/
theorem consumeHandler_snd (db : List Link) (id : String) (now : Int) :
    (consumeHandler db id now).2 = db ∨ (consumeHandler db id now).2 = burnLink db id := by
  unfold consumeHandler
  cases h : getLink db id with
  | none => exact Or.inl rfl
  | some l =>
    right
    simp only [consumeCheck]
    split <;> rfl

/-- The create handler either leaves the store unchanged (rejected request) or
appends one row whose counter equals its total. -/
theorem createHandler_snd (db : List Link) (body : CreateBody) (id : String) (now : Int) :
    (createHandler db body id now).2 = db ∨
      ∃ r : Link, r.views_remaining = r.views_total ∧
        (createHandler db body id now).2 = db ++ [r] := by
  unfold createHandler
  split
  · exact Or.inr ⟨_, rfl, rfl⟩
  · exact Or.inl rfl

/-- Every operation preserves `views_remaining ≤ views_total` for every row. -/
theorem applyOp_views_le_total (db : List Link) (op : StoreOp)
    (hdb : ∀ l ∈ db, l.views_remaining ≤ l.views_total) :
    ∀ l ∈ applyOp db op, l.views_remaining ≤ l.views_total := by
  cases op with
  | create body id now =>
    intro l hl
    simp only [applyOp] at hl
    rcases createHandler_snd db body id now with h | ⟨r, hr, h⟩
    · rw [h] at hl
      exact hdb l hl
    · rw [h] at hl
      rcases List.mem_append.mp hl with hmem | hmem
      · exact hdb l hmem
      · rw [List.mem_singleton.mp hmem, hr]
  | consume id now =>
    intro l hl
    simp only [applyOp] at hl
    rcases consumeHandler_snd db id now with h | h <;> rw [h] at hl
    · exact hdb l hl
    · rcases List.mem_map.mp hl with ⟨l₀, hl₀, rfl⟩
      have h₀ := hdb l₀ hl₀
      split <;> simp <;> omega
  | status id =>
    exact hdb
  | del id =>
    intro l hl
    simp only [applyOp, deleteHandler, deleteLink] at hl
    exact hdb l (List.mem_filter.mp hl).1
  | sweep now =>
    intro l hl
    simp only [applyOp, cleanupExpired] at hl
    exact hdb l (List.mem_filter.mp hl).1

/-- Claim C4 (counterexample): starting from a record created with
`views = views_total = 1`, the sequence consume–consume leaves a stored row
with `views_remaining = -1`, violating `0 ≤ views_remaining`.  The second
consume takes the dead branch, which still issues the unconditional
decrement. -/
theorem invariant_negative_views_cex :
    ∃ l ∈ runOps []
      [StoreOp.create ⟨some "CT", none, some 1, some 3600, false⟩ "a" 0,
       StoreOp.consume "a" 10, StoreOp.consume "a" 10],
      l.views_remaining < 0 := by
  decide

/-- Claim C4 (amended): the upper half of the invariant,
`views_remaining ≤ views_total`, holds for every stored record after every
sequence of create / consume / status / delete / sweep operations from any
store satisfying it (in particular from a fresh create, where the two are
equal); the lower half `0 ≤ views_remaining` does not hold in general. -/
theorem runOps_views_le_total (db : List Link) (ops : List StoreOp)
    (hdb : ∀ l ∈ db, l.views_remaining ≤ l.views_total) :
    ∀ l ∈ runOps db ops, l.views_remaining ≤ l.views_total := by
  induction ops generalizing db with
  | nil => exact hdb
  | cons op ops ih => exact ih (applyOp db op) (applyOp_views_le_total db op hdb)

/-- Witness for the amended C4: the record left over by the counterexample
sequence still satisfies the upper bound (`-1 ≤ 1`). -/
theorem runOps_views_le_total_inst :
    (⟨"a", "CT", -1, 1, 3600, none, false, 0⟩ : Link).views_remaining ≤
      (⟨"a", "CT", -1, 1, 3600, none, false, 0⟩ : Link).views_total :=
  runOps_views_le_total []
    [StoreOp.create ⟨some "CT", none, some 1, some 3600, false⟩ "a" 0,
     StoreOp.consume "a" 10, StoreOp.consume "a" 10]
    (by intro l hl; cases hl) _ (by decide)

/-! Section C8: create request validation -/

/-- Claim C8 (counterexample): a create request with a ciphertext and
`views = -5` (well below 1) is NOT rejected: the handler answers `created`
with `views_left = -5` and inserts a row with
`views_remaining = views_total = -5`. -/
theorem create_accepts_negative_views_cex :
    createHandler [] ⟨some "CT", none, some (-5), some 60, false⟩ "a" 0 =
      (CreateResult.created "a" (-5) 60 false,
       [⟨"a", "CT", -5, -5, 60, none, false, 0⟩]) := by
  decide

/-- Claim C8 (amended): a create request is rejected with InvalidInput exactly
when `body.ciphertext || body.content` is falsy (absent or empty string), and
then no record is inserted; `views` and `ttl_seconds` are never validated —
absent or zero values silently default to 1 and 3600 and any other value,
negative included, is accepted and stored as given. -/
theorem create_validation (db : List Link) (body : CreateBody) (id : String) (now : Int) :
    ((createHandler db body id now).1 = CreateResult.invalid ↔
        jsStrTruthy (effectiveCiphertext body) = false) ∧
      ((createHandler db body id now).1 = CreateResult.invalid →
        (createHandler db body id now).2 = db) ∧
      ((createHandler db body id now).1 ≠ CreateResult.invalid →
        (createHandler db body id now).2 =
          createLink db ⟨id, (effectiveCiphertext body).getD "", jsOr body.views 1,
            jsOr body.views 1, jsOr body.ttl_seconds 3600, none,
            body.password_protected, now⟩) := by
  unfold createHandler
  by_cases h : jsStrTruthy (effectiveCiphertext body)
  · rw [if_pos h]
    refine ⟨⟨fun hc => absurd hc (by simp), fun hc => absurd h (by simp [hc])⟩,
      fun hc => absurd hc (by simp), fun _ => rfl⟩
  · rw [if_neg h]
    exact ⟨⟨fun _ => by simpa using h, fun _ => rfl⟩, fun _ => rfl,
      fun hc => absurd rfl hc⟩

/-- Witness for the amended C8: ciphertext supplied through the `content`
fallback and `views = 0`, which defaults to 1 (not rejected), ttl defaulting
to 3600. -/
theorem create_validation_inst :
    (createHandler [] ⟨none, some "CT2", some 0, none, true⟩ "b" 5).2 =
      [⟨"b", "CT2", 1, 1, 3600, none, true, 5⟩] := by
  have h := create_validation [] ⟨none, some "CT2", some 0, none, true⟩ "b" 5
  exact (h.2.2 (by decide)).trans (by decide)

/-! Section C9: the expiry reaper -/

/-- Splitting a list by a Boolean predicate preserves the total length. -/
theorem filter_length_split (db : List Link) (p : Link → Bool) :
    (db.filter p).length + (db.filter (fun l => !(p l))).length = db.length := by
  induction db with
  | nil => rfl
  | cons head tail ih =>
    by_cases hp : p head <;> simp [List.filter_cons, hp] <;> omega

/-- Claim C9: `sweepExpired` removes exactly the dead records — its return
value counts them, every surviving row is a live row of the input, every live
row survives — and a second run on the result returns 0. -/
theorem sweepExpired_correct (db : List Link) (now : Int) :
    (cleanupExpired db now).1 = (db.filter (fun l => isDead now l)).length ∧
      (∀ l ∈ (cleanupExpired db now).2, l ∈ db ∧ isDead now l = false) ∧
      (∀ l ∈ db, isDead now l = false → l ∈ (cleanupExpired db now).2) ∧
      (cleanupExpired (cleanupExpired db now).2 now).1 = 0 := by
  refine ⟨?_, ?_, ?_, ?_⟩
  · have h := filter_length_split db (fun l => isDead now l)
    simp only [cleanupExpired]
    omega
  · intro l hl
    have h := List.mem_filter.mp hl
    exact ⟨h.1, by simpa using h.2⟩
  · intro l hl hlive
    exact List.mem_filter.mpr ⟨hl, by simp [hlive]⟩
  · have hself : List.filter (fun l => !(isDead now l))
        (List.filter (fun l => !(isDead now l)) db) =
        List.filter (fun l => !(isDead now l)) db :=
      List.filter_eq_self.mpr (fun a ha => (List.mem_filter.mp ha).2)
    show (List.filter (fun l => !(isDead now l)) db).length -
        (List.filter (fun l => !(isDead now l))
          (List.filter (fun l => !(isDead now l)) db)).length = 0
    rw [hself]
    omega

/-- Witness for C9: one dead record (budget exhausted) and one live one —
the sweep removes exactly the dead one, keeps the live one, and a second
sweep removes nothing. -/
theorem sweepExpired_correct_inst :
    (cleanupExpired [⟨"a", "X", 0, 1, 3600, none, false, 0⟩,
        ⟨"b", "Y", 1, 1, 3600, none, false, 0⟩] 1000).1 = 1 ∧
      (⟨"b", "Y", 1, 1, 3600, none, false, 0⟩ : Link) ∈
        (cleanupExpired [⟨"a", "X", 0, 1, 3600, none, false, 0⟩,
          ⟨"b", "Y", 1, 1, 3600, none, false, 0⟩] 1000).2 ∧
      (cleanupExpired (cleanupExpired [⟨"a", "X", 0, 1, 3600, none, false, 0⟩,
        ⟨"b", "Y", 1, 1, 3600, none, false, 0⟩] 1000).2 1000).1 = 0 := by
  have h := sweepExpired_correct [⟨"a", "X", 0, 1, 3600, none, false, 0⟩,
    ⟨"b", "Y", 1, 1, 3600, none, false, 0⟩] 1000
  exact ⟨h.1.trans (by decide), h.2.2.1 _ (by decide) (by decide), h.2.2.2⟩

/-! Section C10: the burned row persists until reaped -/

/-- Claim C10: the final successful consume (on a live row with one view
left) reports `burned = true`, yet the row still physically exists with
`views_remaining = 0`; a status query still answers with the stored counters
rather than NotFound; an explicit delete does remove the row. -/
theorem burned_row_persists (db : List Link) (id : String) (now : Int) (l : Link)
    (h : getLink db id = some l)
    (httl : now ≤ l.created_at + l.ttl_seconds * 1000)
    (hvr : l.views_remaining = 1) :
    (consumeHandler db id now).1 =
        ConsumeResult.success l.content 0 true l.password_protected ∧
      getLink (consumeHandler db id now).2 id = some { l with views_remaining := 0 } ∧
      statusHandler (consumeHandler db id now).2 id =
        StatusResult.ok l.id 0 l.views_total l.created_at l.password_protected
          (l.created_at + l.ttl_seconds * 1000) ∧
      getLink (deleteLink (consumeHandler db id now).2 id) id = none := by
  have hlive := consumeHandler_live db id now l h httl (by omega)
  have h1 : l.views_remaining - 1 = 0 := by omega
  have hget : getLink (consumeHandler db id now).2 id = some { l with views_remaining := 0 } := by
    rw [hlive]
    simp only []
    rw [getLink_burnLink, h]
    simp [h1]
  refine ⟨?_, hget, ?_, getLink_deleteLink _ id⟩
  · rw [hlive]
    simp [h1]
  · rw [statusHandler, hget]

/-- Witness for C10 at a concrete single-row store. -/
theorem burned_row_persists_inst :
    (consumeHandler [⟨"c", "CT3", 1, 2, 3600, none, true, 0⟩] "c" 1000).1 =
        ConsumeResult.success "CT3" 0 true true ∧
      getLink (consumeHandler [⟨"c", "CT3", 1, 2, 3600, none, true, 0⟩] "c" 1000).2 "c" =
        some ⟨"c", "CT3", 0, 2, 3600, none, true, 0⟩ ∧
      statusHandler (consumeHandler [⟨"c", "CT3", 1, 2, 3600, none, true, 0⟩] "c" 1000).2 "c" =
        StatusResult.ok "c" 0 2 0 true 3600000 := by
  have h := burned_row_persists [⟨"c", "CT3", 1, 2, 3600, none, true, 0⟩] "c" 1000
    ⟨"c", "CT3", 1, 2, 3600, none, true, 0⟩ rfl (by decide) rfl
  exact ⟨h.1, h.2.1, h.2.2.1.trans (by decide)⟩

/-! Section C7: token generation -/

/-- The fixed 62-character alphanumeric alphabet of the token generator. -/
def CHARS : List Char :=
  "abcdefghijklmnopqrstuvwxyzABCDEFGHIJKLMNOPQRSTUVWXYZ0123456789".toList

/-- Function `generateId` with its random byte source explicit: one output character
per byte, picked as `CHARS[b % CHARS.length]`; the caller passes `length`
bytes (default 12) drawn from `crypto.getRandomValues`. -/
def generateId (bytes : List Nat) : String :=
  String.mk (bytes.map (fun b => CHARS.getD (b % CHARS.length) 'A'))

set_option maxRecDepth 4000 in
/-- Claim C7 (counterexample): the characters are NOT uniform under a uniform
byte source.  Of the 256 byte values, 5 map to the first alphabet character
and only 4 to the last: `256 = 4 * 62 + 8`, so the first 8 characters are
selected with probability 5/256 and the remaining 54 with 4/256. -/
theorem generateId_bias_cex :
    ((List.range 256).countP (fun b => generateId [b] == "a")) = 5 ∧
      ((List.range 256).countP (fun b => generateId [b] == "9")) = 4 := by
  decide

/-- Claim C7 (amended): `generate(length)` does return exactly one character
per supplied random byte — so exactly the requested length — and every
character is drawn from the fixed 62-character alphanumeric alphabet; the
draw is `byte % 62`, which is close to but not exactly uniform. -/
theorem generateId_length_alphabet (bytes : List Nat) :
    (generateId bytes).length = bytes.length ∧
      ∀ c ∈ (generateId bytes).toList, c ∈ CHARS := by
  constructor
  · show (bytes.map (fun b => CHARS.getD (b % CHARS.length) 'A')).length = bytes.length
    exact List.length_map _ _
  · intro c hc
    have hc2 : c ∈ bytes.map (fun b => CHARS.getD (b % CHARS.length) 'A') := hc
    rcases List.mem_map.mp hc2 with ⟨b, _, rfl⟩
    have hlt : b % CHARS.length < CHARS.length := Nat.mod_lt _ (by decide)
    rw [List.getD_eq_getElem _ _ hlt]
    exact List.getElem_mem _

/-- Witness for the amended C7 at three concrete bytes. -/
theorem generateId_length_alphabet_inst :
    (generateId [0, 61, 255]).length = 3 ∧ 'a' ∈ CHARS :=
  ⟨(generateId_length_alphabet [0, 61, 255]).1,
   (generateId_length_alphabet [0, 61, 255]).2 'a' (by decide)⟩

/-! Section C5: zero-knowledge of the serving path -/

/-- A row of the legacy worker's `links` table: no `password_protected`
column, and the `password` column holds the creation password encrypted
server-side with the worker's `ENCRYPTION_KEY`. -/
structure LegacyLink where
  id : String
  content : String
  views_remaining : Int
  views_total : Int
  ttl_seconds : Int
  password : Option String
  created_at : Int

deriving instance DecidableEq for LegacyLink

/-- Function `getLink` against the legacy table. -/
def legacyGetLink (db : List LegacyLink) (id : String) : Option LegacyLink :=
  db.find? (fun l => l.id == id)

/-- Function `burnLink` against the legacy table. -/
def legacyBurnLink (db : List LegacyLink) (id : String) : List LegacyLink :=
  db.map (fun l =>
    if l.id == id then { l with views_remaining := l.views_remaining - 1 } else l)

/-- Outcome of the legacy consume endpoint. -/
inductive LegacyConsumeResult where
  | notFound
  | expiredOrBurned
  | passwordRequired
  | success (content : String) (views_remaining : Int) (burned : Bool)

deriving instance DecidableEq for LegacyConsumeResult

/-- The legacy worker's consume handler.  `sdec k ct` stands for the worker's
`decrypt(ct, k)` with the server-held `ENCRYPTION_KEY` `k`: when the row has a
stored password the handler decrypts it and compares the request body's
plaintext password against it (401 on mismatch), and on success it answers
with the DECRYPTED stored content. -/
def legacyConsumeHandler (sdec : String → String → String) (encKey : String)
    (db : List LegacyLink) (id : String) (now : Int) (bodyPassword : Option String) :
    LegacyConsumeResult × List LegacyLink :=
  match legacyGetLink db id with
  | none => (.notFound, db)
  | some link =>
    if now > link.created_at + link.ttl_seconds * 1000 ∨ link.views_remaining ≤ 0 then
      (.expiredOrBurned, legacyBurnLink db id)
    else if jsStrTruthy link.password ∧
        bodyPassword ≠ some (sdec encKey (link.password.getD "")) then
      (.passwordRequired, db)
    else
      (.success (sdec encKey link.content) (link.views_remaining - 1)
        (decide (link.views_remaining - 1 ≤ 0)), legacyBurnLink db id)

/-- Claim C5 (counterexample): the legacy serving path does possess and use
the means to decrypt.  With a decryption stand-in that maps `"CT"` to
`"CT-DEC"`, its consume answers with the decrypted content, not the stored
ciphertext bytes — the handler invokes server-side decryption on the stored
blob (and, when a password row is set, on the stored password). -/
theorem legacy_consume_decrypts_cex :
    (legacyConsumeHandler (fun _ ct => ct ++ "-DEC") "KEY"
        [⟨"a", "CT", 1, 1, 3600, none, 0⟩] "a" 1000 none).1 =
      LegacyConsumeResult.success "CT-DEC" 0 true ∧ "CT-DEC" ≠ "CT" := by
  decide

/-- Claim C5 (amended): the E2E worker's consume does return the stored
ciphertext bytes unchanged (its handler never applies a decryption function
and takes no key or password input), but the legacy worker in
src/src/index.ts decrypts the stored content — and the stored password —
with the server-held `ENCRYPTION_KEY` at consume time. -/
theorem e2e_consume_returns_stored (db : List Link) (id : String) (now : Int) (l : Link)
    (h : getLink db id = some l)
    (httl : now ≤ l.created_at + l.ttl_seconds * 1000)
    (hvr : 0 < l.views_remaining) :
    (consumeHandler db id now).1 =
      ConsumeResult.success l.content (l.views_remaining - 1)
        (decide (l.views_remaining - 1 ≤ 0)) l.password_protected := by
  rw [consumeHandler_live db id now l h httl hvr]

/-- Witness for the amended C5. -/
theorem e2e_consume_returns_stored_inst :
    (consumeHandler [⟨"d", "STORED", 2, 2, 3600, none, false, 0⟩] "d" 1).1 =
      ConsumeResult.success "STORED" 1 false false := by
  have h := e2e_consume_returns_stored [⟨"d", "STORED", 2, 2, 3600, none, false, 0⟩] "d" 1
    ⟨"d", "STORED", 2, 2, 3600, none, false, 0⟩ rfl (by decide) (by decide)
  exact h.trans (by decide)

/-! Section C6: layered client-side encryption round trip -/

/-- The AES-256-GCM primitive of the Web Crypto API, abstracted: `enc key iv
pt` is the GCM ciphertext (authentication tag included), `dec key iv ct`
recovers the plaintext or fails on a tag mismatch, and decryption inverts
encryption under the same key and nonce. -/
structure GcmSpec where
  enc : List Nat → List Nat → List Nat → List Nat
  dec : List Nat → List Nat → List Nat → Option (List Nat)
  dec_enc : ∀ key iv pt, dec key iv (enc key iv pt) = some pt

/-- Function `aesEncrypt`: the 12-byte IV prepended to the GCM ciphertext. -/
def aesEncrypt (g : GcmSpec) (key iv pt : List Nat) : List Nat :=
  iv ++ g.enc key iv pt

/-- Function `aesDecrypt`: split the leading 12 bytes off as the IV, decrypt the rest. -/
def aesDecrypt (g : GcmSpec) (key data : List Nat) : Option (List Nat) :=
  g.dec key (data.take 12) (data.drop 12)

/-- JavaScript truthiness of the optional password argument: absent and the
empty password both take the no-password branch. -/
def pwTruthy : Option (List Nat) → Bool
  | none => false
  | some pw => !pw.isEmpty

/-- Function `vanishEncrypt` with its random choices — the 16-byte password salt, the
two 12-byte GCM IVs, and the random 256-bit content key — made explicit.
Layer 1 (only when a password is given): encrypt under the PBKDF2-derived key
`kdf password salt`.  Layer 2 (always): encrypt under the random key.  The
salt is prepended to the final blob when a password was used.  Plaintext and
ciphertext are byte lists (TextEncoder/base64 transport is the identity on
bytes). -/
def vanishEncrypt (g : GcmSpec) (kdf : List Nat → List Nat → List Nat)
    (pt : List Nat) (password : Option (List Nat))
    (salt iv1 iv2 key : List Nat) : List Nat × List Nat :=
  if pwTruthy password then
    let data := aesEncrypt g (kdf (password.getD []) salt) iv1 pt
    let encrypted := aesEncrypt g key iv2 data
    (salt ++ encrypted, key)
  else
    (aesEncrypt g key iv2 pt, key)

/-- Function `vanishDecrypt`: always unwrap the random-key layer; when a password is
supplied, first split the leading 16 bytes off as the salt, then re-derive the
password key and unwrap the inner layer. -/
def vanishDecrypt (g : GcmSpec) (kdf : List Nat → List Nat → List Nat)
    (ct key : List Nat) (password : Option (List Nat)) : Option (List Nat) :=
  if pwTruthy password then
    match aesDecrypt g key (ct.drop 16) with
    | none => none
    | some unwrapped => aesDecrypt g (kdf (password.getD []) (ct.take 16)) unwrapped
  else
    aesDecrypt g key ct

/-- Claim C6: round-trip correctness of the layered scheme — decrypting the
blob produced by `vanishEncrypt` with the returned random key and the same
optional password recovers the plaintext, in the single-layer (no password)
mode and in the layered (password, salt-prepended) mode alike. -/
theorem vanish_roundtrip (g : GcmSpec) (kdf : List Nat → List Nat → List Nat)
    (pt : List Nat) (password : Option (List Nat)) (salt iv1 iv2 key : List Nat)
    (hsalt : salt.length = 16) (hiv1 : iv1.length = 12) (hiv2 : iv2.length = 12) :
    vanishDecrypt g kdf (vanishEncrypt g kdf pt password salt iv1 iv2 key).1
      (vanishEncrypt g kdf pt password salt iv1 iv2 key).2 password = some pt := by
  have hunwrap : ∀ k p, aesDecrypt g k (aesEncrypt g k iv2 p) = some p := by
    intro k p
    unfold aesDecrypt aesEncrypt
    rw [List.take_left' hiv2, List.drop_left' hiv2, g.dec_enc]
  by_cases hpw : pwTruthy password
  · simp only [vanishEncrypt, vanishDecrypt, if_pos hpw]
    rw [List.drop_left' hsalt, hunwrap, List.take_left' hsalt]
    show aesDecrypt g (kdf (password.getD []) salt)
      (aesEncrypt g (kdf (password.getD []) salt) iv1 pt) = some pt
    unfold aesDecrypt aesEncrypt
    rw [List.take_left' hiv1, List.drop_left' hiv1, g.dec_enc]
  · simp only [vanishEncrypt, vanishDecrypt, if_neg hpw]
    exact hunwrap key pt

/-- A concrete GCM instance for evaluation: shift every byte up on encrypt,
down on decrypt. -/
def shiftGcm : GcmSpec where
  enc := fun _ _ pt => pt.map (· + 1)
  dec := fun _ _ ct => some (ct.map (· - 1))
  dec_enc := by
    intro key iv pt
    simp only [List.map_map]
    have h : ((fun x => x - 1) ∘ fun x : Nat => x + 1) = id := by
      funext x
      simp
    rw [h, List.map_id]

/-- Witness for C6 in the layered mode at concrete bytes. -/
theorem vanish_roundtrip_inst :
    vanishDecrypt shiftGcm (fun pw salt => pw ++ salt)
      (vanishEncrypt shiftGcm (fun pw salt => pw ++ salt) [104, 105] (some [112])
        (List.replicate 16 0) (List.replicate 12 1) (List.replicate 12 2) [9]).1
      (vanishEncrypt shiftGcm (fun pw salt => pw ++ salt) [104, 105] (some [112])
        (List.replicate 16 0) (List.replicate 12 1) (List.replicate 12 2) [9]).2
      (some [112]) = some [104, 105] :=
  vanish_roundtrip shiftGcm (fun pw salt => pw ++ salt) [104, 105] (some [112])
    (List.replicate 16 0) (List.replicate 12 1) (List.replicate 12 2) [9]
    (by decide) (by decide) (by decide)

end VanishLink
